import Mathlib

/-!
Verification of the import-orchestration and statistics-ledger layer of the
CKG knowledge-graph builder (`KnowledgeGrapher/graph/importer.py`, with the
static configuration constants of `graphdb_builder/builder/builder_config.py`).

The Python module is embedded shallowly: the configuration constants become
Lean constants, the ledger (an HDF store holding one table of statistic rows
per version key) becomes an explicit state record, and each orchestration
function becomes a pure function from that state (plus the outputs of the
external importer adapters, which are parameters) to a new state and a trace
of the side effects it performs (directory provisioning, adapter calls).
-/

namespace CKG

/-- `os.path.join(a, b)` for a relative component `b`, as used throughout
the importer: concatenation with a single separator. -/
def joinPath (a b : String) : String := a ++ "/" ++ b

/-- `builder_config.dataDirectory`. -/
def dataDirectory : String := "../../../data"

/-- `builder_config.importDirectory = dataDirectory + "/imports"`. -/
def importDirectory : String := dataDirectory ++ "/imports"

/-- `builder_config.statsDirectory = importDirectory + "/stats"`. -/
def statsDirectory : String := importDirectory ++ "/stats"

/-- `builder_config.statsFile`. -/
def statsFile : String := "stats.hdf"

/-- `builder_config.statsCols`: the configured 8-column schema of the
statistics ledger, in configured order. -/
def statsCols : List String :=
  ["date", "time", "dataset", "filename", "file_size", "Imported_number",
   "Import_type", "name"]

/-- Modelled from the spec: `ontologies_config.ontologiesImportDir` is not
under `src/`; the spec's filesystem layout gives `<importRoot>/ontologies/`. -/
def ontologiesImportDir : String := "ontologies"

/-- Modelled from the spec: `databases_config.databasesImportDir` is not
under `src/`; the spec's filesystem layout gives `<importRoot>/databases/`. -/
def databasesImportDir : String := "databases"

/-- Modelled from the spec: `experiments_config.experimentsImportDirectory`
is not under `src/`; the spec's layout gives an experiments-import root
(`builder_config` places it at `importDirectory + "/experiments"`). -/
def experimentsImportDirectory : String := importDirectory ++ "/experiments"

/-- Modelled from the spec: `experiments_config.experimentsDir`, the
experiments-source root whose subdirectories are the candidate projects, is
not under `src/`; only its role matters, so it is a fixed opaque path. -/
def experimentsDir : String := "../../../data/experiments"

/-!
### Python `str.replace`

`getStatsName` uses `str(version).replace('.', '_')`.  Python's `str.replace`
substitutes every non-overlapping occurrence of the pattern, scanning left to
right.  It is embedded with explicit fuel (one unit per character examined)
so that the definition is structurally recursive and evaluates by `rfl`;
`pyReplace` supplies fuel equal to the input length, which suffices for any
non-empty pattern because each step consumes at least one input character.
-/

/-- Fuel-indexed worker for Python `str.replace` on character lists. -/
def pyReplaceAux (old new : List Char) : Nat → List Char → List Char
  | _, [] => []
  | 0, l => l
  | fuel + 1, c :: rest =>
    if (old.isPrefixOf (c :: rest)) then
      new ++ pyReplaceAux old new fuel ((c :: rest).drop old.length)
    else
      c :: pyReplaceAux old new fuel rest

/-- Python `s.replace(old, new)` on character lists (non-empty `old`). -/
def pyReplace (old new : List Char) (s : List Char) : List Char :=
  pyReplaceAux old new s.length s

/-- `importer.getStatsName`, with `config.version` (a configuration constant
not under `src/`) made an explicit argument:
`'stats_' + str(version).replace('.', '_')`. -/
def getStatsName (version : String) : String :=
  "stats_" ++ String.mk (pyReplace ['.'] ['_'] version.data)

/-- Modelled from the spec: the spec's description of `deriveVersionKey`,
"replacing every `.` with `_`", i.e. a character-wise substitution. -/
def specReplaceDots (version : String) : String :=
  String.mk (version.data.map (fun c => if c = '.' then '_' else c))

theorem pyReplaceAux_dot_map (fuel : Nat) (l : List Char) (h : l.length ≤ fuel) :
    pyReplaceAux ['.'] ['_'] fuel l = l.map (fun c => if c = '.' then '_' else c) := by
  induction fuel generalizing l with
  | zero =>
    cases l with
    | nil => rfl
    | cons c rest => simp at h
  | succ fuel ih =>
    cases l with
    | nil => rfl
    | cons c rest =>
      simp only [List.length_cons, Nat.succ_le_succ_iff] at h
      by_cases hc : c = '.'
      · subst hc
        simp [pyReplaceAux, List.isPrefixOf, ih rest h]
      · have hpre : (['.'].isPrefixOf (c :: rest)) = false := by
          simp [List.isPrefixOf]
          intro hcontra
          exact hc hcontra.symm
        simp [pyReplaceAux, hpre, hc, ih rest h]

theorem pyReplace_dot_map (l : List Char) :
    pyReplace ['.'] ['_'] l = l.map (fun c => if c = '.' then '_' else c) :=
  pyReplaceAux_dot_map l.length l (Nat.le_refl _)

/-- Claim C2: `getStatsName` is a pure function that maps a version string to
a table identifier by replacing every `.` with `_` and prefixing `stats_`; in
particular `"1.0" ↦ "stats_1_0"` and `"2.3.1" ↦ "stats_2_3_1"`. -/
theorem getStatsName_replaces_dots :
    (∀ version : String, getStatsName version = "stats_" ++ specReplaceDots version) ∧
    getStatsName "1.0" = "stats_1_0" ∧
    getStatsName "2.3.1" = "stats_2_3_1" := by
  refine ⟨fun version => ?_, by decide, by decide⟩
  simp [getStatsName, specReplaceDots, pyReplace_dot_map]

/-- Claim C10: `getStatsName` is not injective: the distinct version strings
`"1.0"` and `"1_0"`, differing only in separator style, share the version key
`"stats_1_0"`. -/
theorem getStatsName_not_injective :
    "1.0" ≠ "1_0" ∧
    getStatsName "1.0" = getStatsName "1_0" ∧
    getStatsName "1.0" = "stats_1_0" := by
  decide

/-!
### The statistics ledger

One statistic row per imported artifact.  `pd.DataFrame.from_records` builds
frames from positional records against the configured column names
(`statsCols`); rows are opaque records of the 8 configured values (all kept
as strings, since the HDF table stores them unchanged).
-/

/-- One statistic record, as returned by an importer adapter: the 8 values
that fill the configured columns, positionally. -/
structure StatRecord where
  date : String
  time : String
  dataset : String
  filename : String
  file_size : String
  imported_number : String
  import_type : String
  name : String
deriving DecidableEq

/-- A pandas DataFrame of statistic rows: named columns plus rows. -/
structure Frame where
  columns : List String
  rows : List StatRecord
deriving DecidableEq

/-- `importer.generateStatsDataFrame`:
`pd.DataFrame.from_records(list(stats), columns=config.statsCols)`. -/
def generateStatsDataFrame (stats : List StatRecord) : Frame :=
  { columns := statsCols, rows := stats }

/-- The persistent state of the statistics ledger: whether the stats
directory exists, whether the ledger file exists as a regular file, and the
tables stored in the file (version key ↦ rows). -/
structure LedgerState where
  statsDirExists : Bool
  statsFileIsFile : Bool
  tables : List (String × List StatRecord)
deriving DecidableEq

/-- Lookup of a table (first binding of the key) in the store; a missing
table reads as no rows. -/
def lookupTable (tables : List (String × List StatRecord)) (k : String) :
    List StatRecord :=
  match tables with
  | [] => []
  | (k0, v0) :: rest => if k0 = k then v0 else lookupTable rest k

/-- Overwrite (or create) the table stored under key `k`, as
`HDFStore.put` does. -/
def setTable (tables : List (String × List StatRecord)) (k : String)
    (v : List StatRecord) : List (String × List StatRecord) :=
  match tables with
  | [] => [(k, v)]
  | (k0, v0) :: rest =>
    if k0 = k then (k, v) :: rest else (k0, v0) :: setTable rest k v

/-- Rows of the table under key `k` in a ledger state. -/
def getTable (s : LedgerState) (k : String) : List StatRecord :=
  lookupTable s.tables k

/-- `importer.createEmptyStats`: opens (creating) the HDF store at the stats
file and `put`s an empty table under `statsName` (the `cols` argument only
fixes the stored schema, which the state does not track).  Opening the store
creates the ledger file. -/
def createEmptyStats (cols : List String) (statsName : String)
    (s : LedgerState) : LedgerState :=
  let _ := cols
  { s with statsFileIsFile := true, tables := setTable s.tables statsName [] }

/-- `importer.setupStats`, with `config.version` an explicit argument: if the
stats directory does not exist or the stats file is not a regular file, make
the directory if needed and create the ledger with an empty table under the
derived version key; otherwise do nothing. -/
def setupStats (version : String) (s : LedgerState) : LedgerState :=
  let statsName := getStatsName version
  if !s.statsDirExists || !s.statsFileIsFile then
    let s1 := if !s.statsDirExists then { s with statsDirExists := true } else s
    createEmptyStats statsCols statsName s1
  else s

/-- `importer.loadStats`: returns an open handle on the store when the stats
file is a regular file, and `None` otherwise. -/
def loadStats (s : LedgerState) : Option LedgerState :=
  if s.statsFileIsFile then some s else none

/-- `HDFStore.append` on the table map: extend the rows stored under `k`
with `rows`, creating the table when it is absent. -/
def appendRows (t : List (String × List StatRecord)) (k : String)
    (rows : List StatRecord) : List (String × List StatRecord) :=
  setTable t k (lookupTable t k ++ rows)

/-- `importer.writeStats`, with `config.version` an explicit argument:
derives the key when none is given, opens the store via `loadStats`, and
appends the frame's rows to the table under the key (`HDFStore.append`
creates the table when absent).  When `loadStats` returns `None` the
subsequent `hdf.append` raises (`None` has no attribute `append`): the call
fails fatally, modelled as `none`, and the on-disk state is untouched. -/
def writeStats (version : String) (statsDf : Frame)
    (statsName : Option String) (s : LedgerState) : Option LedgerState :=
  let name := match statsName with
    | none => getStatsName version
    | some n => n
  match loadStats s with
  | none => none
  | some hdf => some { hdf with tables := appendRows hdf.tables name statsDf.rows }

/-- A run of successive `writeStats` stages: each stage appends its frame
under its key; a fatal `writeStats` failure aborts the run, leaving the
ledger exactly as the last successful stage left it. -/
def runStages (version : String) :
    List (Frame × Option String) → LedgerState → LedgerState
  | [], s => s
  | (f, n) :: rest, s =>
    match writeStats version f n s with
    | none => s
    | some s' => runStages version rest s'

theorem lookupTable_setTable_self (t : List (String × List StatRecord))
    (k : String) (v : List StatRecord) :
    lookupTable (setTable t k v) k = v := by
  induction t with
  | nil => simp [setTable, lookupTable]
  | cons p rest ih =>
    obtain ⟨k0, v0⟩ := p
    by_cases h : k0 = k
    · simp [setTable, lookupTable, h]
    · simp [setTable, lookupTable, h, ih]

theorem lookupTable_setTable_ne (t : List (String × List StatRecord))
    (k k' : String) (v : List StatRecord) (h : k' ≠ k) :
    lookupTable (setTable t k v) k' = lookupTable t k' := by
  induction t with
  | nil => simp [setTable, lookupTable, Ne.symm h]
  | cons p rest ih =>
    obtain ⟨k0, v0⟩ := p
    by_cases h0 : k0 = k
    · simp [setTable, lookupTable, h0, Ne.symm h]
    · simp [setTable, lookupTable, h0, ih]

/-- A ledger state with an initialized, non-empty table, used to instantiate
theorems at concrete inputs. -/
def sampleRecord : StatRecord :=
  { date := "2020-01-01", time := "12:00:00", dataset := "Disease Ontology",
    filename := "do.tsv", file_size := "1024", imported_number := "42",
    import_type := "entity", name := "Disease" }

/-- A one-row frame over the configured columns. -/
def sampleFrame : Frame := { columns := statsCols, rows := [sampleRecord] }

/-- A ledger state whose file and directory exist, holding one row under
`stats_1_0`. -/
def ledgerReady : LedgerState :=
  { statsDirExists := true, statsFileIsFile := true,
    tables := [("stats_1_0", [sampleRecord])] }

/-- A ledger state before any initialization. -/
def ledgerAbsent : LedgerState :=
  { statsDirExists := false, statsFileIsFile := false, tables := [] }

/-- Claim C3: `setupStats` is idempotent: when the ledger file already exists
as a regular file (its directory hence existing too), the call is a no-op;
and from any state, calling it twice equals calling it once, so a second call
leaves the ledger's tables and row counts unchanged. -/
theorem setupStats_idempotent (version : String) (s : LedgerState) :
    (s.statsFileIsFile = true → s.statsDirExists = true →
      setupStats version s = s) ∧
    setupStats version (setupStats version s) = setupStats version s := by
  constructor
  · intro hf hd
    simp [setupStats, hf, hd]
  · cases hd : s.statsDirExists <;> cases hf : s.statsFileIsFile <;>
      simp [setupStats, createEmptyStats, hd, hf]

/-- Claim C3 witness. -/
theorem setupStats_idempotent_witness :
    setupStats "1.0" ledgerReady = ledgerReady ∧
    setupStats "1.0" (setupStats "1.0" ledgerAbsent) = setupStats "1.0" ledgerAbsent :=
  ⟨(setupStats_idempotent "1.0" ledgerReady).1 rfl rfl,
   (setupStats_idempotent "1.0" ledgerAbsent).2⟩

/-- Claim C4: on an initialized ledger, `writeStats` is an order-preserving
append: writing `fA` then `fB` under the same key leaves that key's table
equal to its previous rows, then `fA`'s rows, then `fB`'s rows; every other
table is unchanged, and every table's previous rows are a prefix of its new
rows (nothing is overwritten or deleted). -/
theorem writeStats_append_order (version k : String) (fA fB : Frame)
    (s : LedgerState) (h : s.statsFileIsFile = true) :
    ∃ s1 s2,
      writeStats version fA (some k) s = some s1 ∧
      writeStats version fB (some k) s1 = some s2 ∧
      getTable s2 k = getTable s k ++ fA.rows ++ fB.rows ∧
      (∀ k', k' ≠ k → getTable s2 k' = getTable s k') ∧
      (∀ k', List.IsPrefix (getTable s k') (getTable s2 k')) := by
  refine ⟨{ s with tables := appendRows s.tables k fA.rows },
          { s with tables := appendRows (appendRows s.tables k fA.rows) k fB.rows },
          ?_, ?_, ?_, ?_, ?_⟩
  · simp [writeStats, loadStats, h]
  · simp [writeStats, loadStats, h]
  · simp [getTable, appendRows, lookupTable_setTable_self, List.append_assoc]
  · intro k' hk
    simp [getTable, appendRows, lookupTable_setTable_ne _ _ _ _ hk]
  · intro k'
    by_cases hk : k' = k
    · subst hk
      simp only [getTable, appendRows, lookupTable_setTable_self]
      exact ⟨fA.rows ++ fB.rows, by simp [List.append_assoc]⟩
    · simp [getTable, appendRows, lookupTable_setTable_ne _ _ _ _ hk]

/-- Claim C4 witness. -/
theorem writeStats_append_order_witness :
    ∃ s1 s2,
      writeStats "1.0" sampleFrame (some "stats_1_0") ledgerReady = some s1 ∧
      writeStats "1.0" sampleFrame (some "stats_1_0") s1 = some s2 ∧
      getTable s2 "stats_1_0" =
        getTable ledgerReady "stats_1_0" ++ sampleFrame.rows ++ sampleFrame.rows ∧
      (∀ k', k' ≠ "stats_1_0" → getTable s2 k' = getTable ledgerReady k') ∧
      (∀ k', List.IsPrefix (getTable ledgerReady k') (getTable s2 k')) :=
  writeStats_append_order "1.0" "stats_1_0" sampleFrame sampleFrame ledgerReady rfl

/-- Claim C5: `writeStats` fails fatally whenever the ledger file cannot be
opened (no regular file at the stats path), and a run abandoned at such a
failure leaves the ledger state exactly as it was: rows appended by earlier,
already-completed stages remain (no rollback). -/
theorem writeStats_fatal_no_rollback (version : String) (f : Frame)
    (name : Option String) (s : LedgerState)
    (rest : List (Frame × Option String)) (h : s.statsFileIsFile = false) :
    writeStats version f name s = none ∧
    runStages version ((f, name) :: rest) s = s := by
  have hw : writeStats version f name s = none := by
    simp [writeStats, loadStats, h]
  exact ⟨hw, by simp [runStages, hw]⟩

/-- Claim C5 witness. -/
theorem writeStats_fatal_no_rollback_witness :
    writeStats "1.0" sampleFrame none ledgerAbsent = none ∧
    runStages "1.0" [(sampleFrame, none)] ledgerAbsent = ledgerAbsent :=
  writeStats_fatal_no_rollback "1.0" sampleFrame none ledgerAbsent [] rfl

/-!
### The ledger file's state machine

The spec describes the ledger file as moving only forward through
`NONEXISTENT → EMPTY → {EMPTY, NONEMPTY}`.  The phases are read off a
ledger state; the store's operations become a small operation language.
`writeStats` failing fatally aborts the run, leaving the state as it was,
so a failed write is modelled as the identity on the state.
-/

/-- Total number of rows stored across all tables of the store. -/
def rowsSum (t : List (String × List StatRecord)) : Nat :=
  (t.map (fun p => p.2.length)).sum

/-- Total number of rows in the ledger. -/
def totalRows (s : LedgerState) : Nat := rowsSum s.tables

/-- The three phases of the ledger file named by the spec. -/
inductive Phase where
  | nonexistent
  | empty
  | nonempty
deriving DecidableEq

/-- The phase of a ledger state: `nonexistent` when no regular file exists,
otherwise `empty` or `nonempty` according to the stored row count. -/
def phase (s : LedgerState) : Phase :=
  if s.statsFileIsFile then
    (if totalRows s = 0 then Phase.empty else Phase.nonempty)
  else Phase.nonexistent

/-- Forward order on phases: `nonexistent < empty < nonempty`. -/
def rank : Phase → Nat
  | Phase.nonexistent => 0
  | Phase.empty => 1
  | Phase.nonempty => 2

/-- The ledger-mutating operations reachable through the importer's public
flow: `setupStats`, `writeStats` (a fatal failure leaves the state as it
was), and the read-only `loadStats`. -/
inductive LOp where
  | setup
  | write (statsDf : Frame) (statsName : Option String)
  | load
deriving DecidableEq

/-- Apply one store operation to the ledger state. -/
def applyOp (version : String) (op : LOp) (s : LedgerState) : LedgerState :=
  match op with
  | LOp.setup => setupStats version s
  | LOp.write f n =>
    match writeStats version f n s with
    | none => s
    | some s' => s'
  | LOp.load => s

/-- Apply a sequence of store operations, left to right. -/
def applyOps (version : String) (ops : List LOp) (s : LedgerState) : LedgerState :=
  match ops with
  | [] => s
  | op :: rest => applyOps version rest (applyOp version op s)

/-- Physical consistency of a ledger state: a regular file lives inside an
existing directory, and a nonexistent file stores no tables. -/
def ledgerInv (s : LedgerState) : Prop :=
  (s.statsFileIsFile = true → s.statsDirExists = true) ∧
  (s.statsFileIsFile = false → s.tables = [])

theorem rowsSum_setTable_append (t : List (String × List StatRecord))
    (k : String) (r : List StatRecord) :
    rowsSum (setTable t k (lookupTable t k ++ r)) = rowsSum t + r.length := by
  induction t with
  | nil => simp [setTable, lookupTable, rowsSum]
  | cons p rest ih =>
    obtain ⟨k0, v0⟩ := p
    by_cases h : k0 = k
    · subst h
      simp [setTable, lookupTable, rowsSum]
      omega
    · simp only [setTable, lookupTable, rowsSum, List.map_cons, List.sum_cons,
        if_neg h] at ih ⊢
      omega

theorem rowsSum_appendRows (t : List (String × List StatRecord))
    (k : String) (r : List StatRecord) :
    rowsSum (appendRows t k r) = rowsSum t + r.length := by
  simpa [appendRows] using rowsSum_setTable_append t k r

theorem phase_file_true {s : LedgerState} (h : s.statsFileIsFile = true) :
    phase s = if totalRows s = 0 then Phase.empty else Phase.nonempty := by
  simp [phase, h]

theorem applyOp_step (version : String) (op : LOp) (s : LedgerState)
    (hInv : ledgerInv s) :
    ledgerInv (applyOp version op s) ∧
    rank (phase s) ≤ rank (phase (applyOp version op s)) ∧
    (s.statsFileIsFile = true → (applyOp version op s).statsFileIsFile = true) ∧
    (∀ k, List.IsPrefix (getTable s k) (getTable (applyOp version op s) k)) ∧
    (phase s = Phase.nonexistent →
      phase (applyOp version op s) = Phase.nonexistent ∨
      phase (applyOp version op s) = Phase.empty) := by
  obtain ⟨dirE, fileE, tbls⟩ := s
  cases op with
  | load =>
    exact ⟨hInv, Nat.le_refl _, fun h => h, fun k => List.prefix_refl _,
      fun h => Or.inl h⟩
  | write f n =>
    cases fileE with
    | false =>
      have hw : applyOp version (LOp.write f n) ⟨dirE, false, tbls⟩ =
          ⟨dirE, false, tbls⟩ := by
        simp [applyOp, writeStats, loadStats]
      rw [hw]
      exact ⟨hInv, Nat.le_refl _, fun h => h, fun k => List.prefix_refl _,
        fun h => Or.inl h⟩
    | true =>
      obtain ⟨nm, hw⟩ : ∃ nm, applyOp version (LOp.write f n) ⟨dirE, true, tbls⟩ =
          ⟨dirE, true, appendRows tbls nm f.rows⟩ := by
        cases n with
        | none =>
          exact ⟨getStatsName version, by simp [applyOp, writeStats, loadStats]⟩
        | some nm0 => exact ⟨nm0, by simp [applyOp, writeStats, loadStats]⟩
      rw [hw]
      refine ⟨⟨fun _ => hInv.1 rfl, fun hc => by simp at hc⟩, ?_, fun _ => rfl, ?_, ?_⟩
      · rw [phase_file_true rfl, phase_file_true rfl]
        simp only [totalRows, rowsSum_appendRows]
        by_cases h0 : rowsSum tbls = 0
        · by_cases h1 : rowsSum tbls + f.rows.length = 0
          · rw [if_pos h0, if_pos h1]
          · rw [if_pos h0, if_neg h1]
            decide
        · have h1 : ¬ (rowsSum tbls + f.rows.length = 0) := by omega
          rw [if_neg h0, if_neg h1]
      · intro k
        by_cases hk : k = nm
        · subst hk
          simp only [getTable, appendRows, lookupTable_setTable_self]
          exact ⟨f.rows, rfl⟩
        · simp only [getTable, appendRows, lookupTable_setTable_ne _ _ _ _ hk]
          exact List.prefix_refl _
      · intro h
        rw [phase_file_true rfl] at h
        split at h <;> cases h
  | setup =>
    cases fileE with
    | true =>
      have hd : dirE = true := hInv.1 rfl
      subst hd
      have hsame : applyOp version LOp.setup ⟨true, true, tbls⟩ =
          ⟨true, true, tbls⟩ := by
        simp [applyOp, setupStats]
      rw [hsame]
      exact ⟨hInv, Nat.le_refl _, fun h => h, fun k => List.prefix_refl _,
        fun h => Or.inl h⟩
    | false =>
      have ht : tbls = [] := hInv.2 rfl
      subst ht
      have hres : applyOp version LOp.setup ⟨dirE, false, []⟩ =
          ⟨true, true, [(getStatsName version, [])]⟩ := by
        cases dirE <;> simp [applyOp, setupStats, createEmptyStats, setTable]
      rw [hres]
      refine ⟨⟨fun _ => rfl, fun hc => by simp at hc⟩, ?_, ?_, ?_, ?_⟩
      · have h0 : phase ⟨dirE, false, []⟩ = Phase.nonexistent := by simp [phase]
        rw [h0]
        exact Nat.zero_le _
      · intro h
        cases h
      · intro k
        simp only [getTable, lookupTable]
        exact List.nil_prefix
      · intro _
        right
        simp [phase, totalRows, rowsSum]

theorem applyOps_inv_rank (version : String) (ops : List LOp) :
    ∀ s : LedgerState, ledgerInv s →
      ledgerInv (applyOps version ops s) ∧
      rank (phase s) ≤ rank (phase (applyOps version ops s)) := by
  induction ops with
  | nil => exact fun s h => ⟨h, Nat.le_refl _⟩
  | cons op rest ih =>
    intro s h
    have hstep := applyOp_step version op s h
    have hrest := ih (applyOp version op s) hstep.1
    exact ⟨hrest.1, Nat.le_trans hstep.2.1 hrest.2⟩

/-- Claim C8 (amended): for the operations reachable through the importer's
public flow — `setupStats`, `writeStats` (whose fatal failure leaves the
state untouched) and `loadStats` — the ledger only moves forward: no
sequence lowers the phase in the order
`NONEXISTENT < EMPTY < NONEMPTY`; from `NONEXISTENT` a single operation
reaches only `NONEXISTENT` or `EMPTY`; and no single operation deletes the
file or truncates a table.  (The internal helper `createEmptyStats`,
excluded here, does truncate when invoked directly on a non-empty ledger;
see the counterexample.) -/
theorem ledger_forward_only (version : String) (s : LedgerState)
    (hInv : ledgerInv s) :
    (∀ ops : List LOp,
      ledgerInv (applyOps version ops s) ∧
      rank (phase s) ≤ rank (phase (applyOps version ops s))) ∧
    (∀ op : LOp,
      (s.statsFileIsFile = true → (applyOp version op s).statsFileIsFile = true) ∧
      (∀ k, List.IsPrefix (getTable s k) (getTable (applyOp version op s) k)) ∧
      (phase s = Phase.nonexistent →
        phase (applyOp version op s) = Phase.nonexistent ∨
        phase (applyOp version op s) = Phase.empty)) := by
  constructor
  · exact fun ops => applyOps_inv_rank version ops s hInv
  · intro op
    have h := applyOp_step version op s hInv
    exact ⟨h.2.2.1, h.2.2.2.1, h.2.2.2.2⟩

/-- Claim C8 witness. -/
theorem ledger_forward_only_witness :
    (ledgerInv (applyOps "1.0" [LOp.setup, LOp.write sampleFrame none, LOp.load]
        ledgerAbsent) ∧
      rank (phase ledgerAbsent) ≤
        rank (phase (applyOps "1.0" [LOp.setup, LOp.write sampleFrame none, LOp.load]
          ledgerAbsent))) ∧
    (phase ledgerAbsent = Phase.nonexistent →
      phase (applyOp "1.0" LOp.setup ledgerAbsent) = Phase.nonexistent ∨
      phase (applyOp "1.0" LOp.setup ledgerAbsent) = Phase.empty) :=
  ⟨(ledger_forward_only "1.0" ledgerAbsent (by constructor <;> intro h <;> simp_all [ledgerAbsent])).1
      [LOp.setup, LOp.write sampleFrame none, LOp.load],
   ((ledger_forward_only "1.0" ledgerAbsent (by constructor <;> intro h <;> simp_all [ledgerAbsent])).2
      LOp.setup).2.2⟩

/-- Claim C8 counterexample: `createEmptyStats` — one of the operations the
claim names — invoked directly on an existing non-empty ledger overwrites the
version-key table with an empty one, moving the ledger from `NONEMPTY` back
to `EMPTY`. -/
theorem createEmptyStats_truncates_nonempty :
    phase ledgerReady = Phase.nonempty ∧
    phase (createEmptyStats statsCols "stats_1_0" ledgerReady) = Phase.empty := by
  constructor
  · rfl
  · rfl

/-!
### The import orchestrator

The orchestration functions are embedded as pure functions producing a
trace of the side effects that are out of the ledger's scope — directory
provisioning (`utils.checkDirectory`) and calls into the external importer
adapters — together with the resulting ledger state.  The adapters are
external collaborators: their returned statistic records are parameters,
and `utils.listDirectoryFolders` is a parameter `fs` mapping a directory to
the list of its subdirectory names.  `joblib.Parallel` runs every generated
task exactly once whatever the worker count, so the fan-out is embedded as
a sequential traversal in which `n_jobs` plays no role.
-/

/-- One observable side effect of the orchestrator. -/
inductive Event where
  | provision (path : String)
  | ontologyAdapter (names : Option (List String))
  | databaseAdapter (names : Option (List String)) (njobs : Nat)
  | experimentAdapter (project : String) (dataset : String)
  | printElapsed
deriving DecidableEq

/-- A Python value passed as the `projects` argument of `experimentsImport`:
the parameter is meant to be a list of project names (or `None`), but being
dynamically typed it can also receive a string, which `for project in
projects` then iterates character by character. -/
inductive PyStrOrList where
  | str (s : String)
  | list (l : List String)
deriving DecidableEq

/-- Iteration over the `projects` value after the `if projects is None`
default: a list yields its elements, a string yields its one-character
substrings. -/
def resolveProjects (fs : String → List String) (projects : Option PyStrOrList) :
    List String :=
  match projects with
  | none => fs experimentsDir
  | some (PyStrOrList.list l) => l
  | some (PyStrOrList.str s) => s.data.map (fun c => String.mk [c])

/-- `importer.experimentImport`: provision the project-scoped output
directory, list the project's dataset subdirectories, and per dataset
provision its output directory and call the Experiment Adapter. -/
def experimentImport (fs : String → List String)
    (importDir experimentsDirectory project : String) : List Event :=
  let projectPath := joinPath importDir project
  let projectDirectory := joinPath experimentsDirectory project
  let datasets := fs projectDirectory
  Event.provision projectPath ::
    datasets.flatMap (fun dataset =>
      [Event.provision (joinPath projectPath dataset),
       Event.experimentAdapter project dataset])

/-- `importer.experimentsImport`: provision the experiments-import root,
default `projects` to the folders under the experiments-source root, and run
`experimentImport` once per resolved project (`joblib.Parallel` dispatches
each generated task exactly once, so `n_jobs` does not affect the set of
calls). -/
def experimentsImport (fs : String → List String)
    (projects : Option PyStrOrList) (n_jobs : Nat) : List Event :=
  let _ := n_jobs
  Event.provision experimentsImportDirectory ::
    (resolveProjects fs projects).flatMap
      (fun project =>
        experimentImport fs experimentsImportDirectory experimentsDir project)

/-- `importer.ontologiesImport`: provision `<importRoot>/ontologies`, call
the Ontology Adapter (whose returned records are the parameter
`adapterStats`), shape them into a frame and append it to the ledger. -/
def ontologiesImport (version importDir : String)
    (ontologies : Option (List String)) (adapterStats : List StatRecord)
    (s : LedgerState) : List Event × Option LedgerState :=
  let ontologiesImportDirectory := joinPath importDir ontologiesImportDir
  let statsDf := generateStatsDataFrame adapterStats
  ([Event.provision ontologiesImportDirectory, Event.ontologyAdapter ontologies],
   writeStats version statsDf none s)

/-- `importer.databasesImport`: provision `<importRoot>/databases`, call the
Database Adapter with `n_jobs` workers, shape the returned records into a
frame and append it to the ledger. -/
def databasesImport (version importDir : String)
    (databases : Option (List String)) (n_jobs : Nat)
    (adapterStats : List StatRecord) (s : LedgerState) :
    List Event × Option LedgerState :=
  let databasesImportDirectory := joinPath importDir databasesImportDir
  let statsDf := generateStatsDataFrame adapterStats
  ([Event.provision databasesImportDirectory,
    Event.databaseAdapter databases n_jobs],
   writeStats version statsDf none s)

/-- `importer.fullImport`: provision the root import directory, run
`setupStats`, then the three stages in order, printing the elapsed time
after each.  The source passes `importDirectory` positionally to
`experimentsImport`, so its `projects` parameter receives the import
directory path string rather than defaulting to `None`. -/
def fullImport (fs : String → List String) (version : String)
    (ontStats dbStats : List StatRecord) (s : LedgerState) :
    List Event × Option LedgerState :=
  let s0 := setupStats version s
  let (e1, r1) := ontologiesImport version importDirectory none ontStats s0
  match r1 with
  | none => (Event.provision importDirectory :: e1, none)
  | some s1 =>
    let (e2, r2) := databasesImport version importDirectory none 4 dbStats s1
    match r2 with
    | none =>
      (Event.provision importDirectory :: (e1 ++ Event.printElapsed :: e2), none)
    | some s2 =>
      let e3 := experimentsImport fs (some (PyStrOrList.str importDirectory)) 4
      (Event.provision importDirectory ::
        (e1 ++ Event.printElapsed :: e2 ++ Event.printElapsed :: e3 ++
          [Event.printElapsed]),
       some s2)

/-- The (project, dataset) pairs at which the Experiment Adapter is invoked
in a trace. -/
def expAdapterCalls (events : List Event) : List (String × String) :=
  events.filterMap (fun e =>
    match e with
    | Event.experimentAdapter p d => some (p, d)
    | _ => none)

/-- A concrete directory-listing function: the experiments-source root holds
projects `P1` and `P2`, each holding the single dataset `d1`. -/
def fsTwoProjects : String → List String := fun p =>
  if p = experimentsDir then ["P1", "P2"]
  else if p = joinPath experimentsDir "P1" then ["d1"]
  else if p = joinPath experimentsDir "P2" then ["d1"]
  else []

/-- Claim C9: `generateStatsDataFrame` on an empty record sequence yields a
frame with exactly the 8 configured columns and zero rows, and an import
stage whose adapter returns no records completes without error and appends
zero rows to the ledger. -/
theorem generateStatsDataFrame_empty_ok :
    (generateStatsDataFrame []).columns = statsCols ∧
    statsCols.length = 8 ∧
    (generateStatsDataFrame []).rows = [] ∧
    (∀ (version importDir : String) (s : LedgerState),
      s.statsFileIsFile = true →
      ∃ s', (ontologiesImport version importDir none [] s).2 = some s' ∧
        ∀ k, getTable s' k = getTable s k) := by
  refine ⟨rfl, rfl, rfl, ?_⟩
  intro version importDir s h
  refine ⟨{ s with tables := appendRows s.tables (getStatsName version) [] }, ?_, ?_⟩
  · simp [ontologiesImport, writeStats, loadStats, h, generateStatsDataFrame]
  · intro k
    by_cases hk : k = getStatsName version
    · subst hk
      simp [getTable, appendRows, lookupTable_setTable_self]
    · simp [getTable, appendRows, lookupTable_setTable_ne _ _ _ _ hk]

/-- Claim C9 witness. -/
theorem generateStatsDataFrame_empty_ok_witness :
    ∃ s', (ontologiesImport "1.0" importDirectory none [] ledgerReady).2 = some s' ∧
      ∀ k, getTable s' k = getTable ledgerReady k :=
  generateStatsDataFrame_empty_ok.2.2.2 "1.0" importDirectory ledgerReady rfl

/-- Claim C6 (amended: the configured 6th and 7th column names are
`Imported_number` and `Import_type`, with a capital `I`, not
`imported_number` and `import_type`): every statistic record becomes one
ledger row under the 8 configured column names in configured order, and with
an Ontology Adapter returning the records `stats`, `ontologiesImport`
appends exactly `stats.length` new rows to the ledger, carrying the records
verbatim. -/
theorem ontologiesImport_appends_records (version importDir : String)
    (stats : List StatRecord) (s : LedgerState)
    (h : s.statsFileIsFile = true) :
    (generateStatsDataFrame stats).columns =
      ["date", "time", "dataset", "filename", "file_size", "Imported_number",
       "Import_type", "name"] ∧
    (generateStatsDataFrame stats).rows = stats ∧
    ∃ s', (ontologiesImport version importDir none stats s).2 = some s' ∧
      getTable s' (getStatsName version) =
        getTable s (getStatsName version) ++ stats ∧
      (getTable s' (getStatsName version)).length =
        (getTable s (getStatsName version)).length + stats.length ∧
      (∀ k, k ≠ getStatsName version → getTable s' k = getTable s k) := by
  refine ⟨rfl, rfl,
    ⟨{ s with tables := appendRows s.tables (getStatsName version) stats }, ?_, ?_, ?_, ?_⟩⟩
  · simp [ontologiesImport, writeStats, loadStats, h, generateStatsDataFrame]
  · simp [getTable, appendRows, lookupTable_setTable_self]
  · simp [getTable, appendRows, lookupTable_setTable_self]
  · intro k hk
    simp [getTable, appendRows, lookupTable_setTable_ne _ _ _ _ hk]

/-- Claim C6 witness. -/
theorem ontologiesImport_appends_records_witness :
    (generateStatsDataFrame [sampleRecord]).columns =
      ["date", "time", "dataset", "filename", "file_size", "Imported_number",
       "Import_type", "name"] ∧
    (generateStatsDataFrame [sampleRecord]).rows = [sampleRecord] ∧
    ∃ s', (ontologiesImport "1.0" importDirectory none [sampleRecord] ledgerReady).2 =
        some s' ∧
      getTable s' (getStatsName "1.0") =
        getTable ledgerReady (getStatsName "1.0") ++ [sampleRecord] ∧
      (getTable s' (getStatsName "1.0")).length =
        (getTable ledgerReady (getStatsName "1.0")).length + [sampleRecord].length ∧
      (∀ k, k ≠ getStatsName "1.0" → getTable s' k = getTable ledgerReady k) :=
  ontologiesImport_appends_records "1.0" importDirectory [sampleRecord] ledgerReady rfl

/-- Claim C6 counterexample: the configured schema does not use the
lowercase field names the claim states; its 6th and 7th columns are
`Imported_number` and `Import_type`. -/
theorem statsCols_not_lowercase :
    statsCols ≠
      ["date", "time", "dataset", "filename", "file_size", "imported_number",
       "import_type", "name"] ∧
    statsCols[5]? = some "Imported_number" ∧
    statsCols[6]? = some "Import_type" := by
  decide

theorem count_eq_ite_of_nodup {α : Type _} [BEq α] [LawfulBEq α]
    {l : List α} (h : l.Nodup) (a : α) :
    List.count a l = if a ∈ l then 1 else 0 := by
  induction l with
  | nil => simp
  | cons b rest ih =>
    rw [List.nodup_cons] at h
    rw [List.count_cons]
    by_cases hab : a = b
    · subst hab
      rw [List.count_eq_zero_of_not_mem h.1]
      simp
    · have hba : (b == a) = false := by
        simp only [beq_eq_false_iff_ne, ne_eq]
        exact fun hc => hab hc.symm
      rw [hba, ih h.2]
      simp [List.mem_cons, hab]

theorem expAdapterCalls_append (a b : List Event) :
    expAdapterCalls (a ++ b) = expAdapterCalls a ++ expAdapterCalls b := by
  simp [expAdapterCalls, List.filterMap_append]

theorem expAdapterCalls_datasets (p projectPath : String) (ds : List String) :
    expAdapterCalls (ds.flatMap (fun dataset =>
      [Event.provision (joinPath projectPath dataset),
       Event.experimentAdapter p dataset])) = ds.map (fun d => (p, d)) := by
  induction ds with
  | nil => rfl
  | cons d rest ih =>
    rw [List.flatMap_cons, expAdapterCalls_append, ih]
    rfl

theorem expAdapterCalls_experimentImport (fs : String → List String)
    (impD expD p : String) :
    expAdapterCalls (experimentImport fs impD expD p) =
      (fs (joinPath expD p)).map (fun d => (p, d)) := by
  have h0 : expAdapterCalls (experimentImport fs impD expD p) =
      expAdapterCalls ((fs (joinPath expD p)).flatMap (fun dataset =>
        [Event.provision (joinPath (joinPath impD p) dataset),
         Event.experimentAdapter p dataset])) := rfl
  rw [h0, expAdapterCalls_datasets]

theorem expAdapterCalls_experimentsImport (fs : String → List String)
    (projects : Option PyStrOrList) (n : Nat) :
    expAdapterCalls (experimentsImport fs projects n) =
      (resolveProjects fs projects).flatMap
        (fun p => (fs (joinPath experimentsDir p)).map (fun d => (p, d))) := by
  have h0 : expAdapterCalls (experimentsImport fs projects n) =
      expAdapterCalls ((resolveProjects fs projects).flatMap
        (fun project =>
          experimentImport fs experimentsImportDirectory experimentsDir project)) := rfl
  rw [h0]
  induction resolveProjects fs projects with
  | nil => rfl
  | cons p rest ih =>
    rw [List.flatMap_cons, expAdapterCalls_append,
      expAdapterCalls_experimentImport, ih, List.flatMap_cons]

/-- Claim C7: `experimentsImport` with `projects=None` resolves the targets
to every subdirectory of the experiments-source root, provisions a
project-scoped directory and one directory per (project, dataset) pair, and
calls the Experiment Adapter exactly once per (project, dataset) pair; the
value of `n_jobs` changes none of this. -/
theorem experimentsImport_discovers_all (fs : String → List String) (n m : Nat) :
    experimentsImport fs none n = experimentsImport fs none m ∧
    resolveProjects fs none = fs experimentsDir ∧
    expAdapterCalls (experimentsImport fs none n) =
      (fs experimentsDir).flatMap
        (fun p => (fs (joinPath experimentsDir p)).map (fun d => (p, d))) ∧
    (∀ p, p ∈ fs experimentsDir →
      Event.provision (joinPath experimentsImportDirectory p) ∈
        experimentsImport fs none n) ∧
    (∀ p d, p ∈ fs experimentsDir → d ∈ fs (joinPath experimentsDir p) →
      Event.provision (joinPath (joinPath experimentsImportDirectory p) d) ∈
        experimentsImport fs none n) ∧
    ((fs experimentsDir).Nodup →
      (∀ q, q ∈ fs experimentsDir → (fs (joinPath experimentsDir q)).Nodup) →
      ∀ p d,
        List.count (p, d) (expAdapterCalls (experimentsImport fs none n)) =
          if p ∈ fs experimentsDir ∧ d ∈ fs (joinPath experimentsDir p) then 1
          else 0) := by
  refine ⟨rfl, rfl, expAdapterCalls_experimentsImport fs none n, ?_, ?_, ?_⟩
  · intro p hp
    show Event.provision (joinPath experimentsImportDirectory p) ∈
      Event.provision experimentsImportDirectory ::
        (resolveProjects fs none).flatMap
          (fun project =>
            experimentImport fs experimentsImportDirectory experimentsDir project)
    exact List.mem_cons_of_mem _
      (List.mem_flatMap.2 ⟨p, hp, List.mem_cons_self _ _⟩)
  · intro p d hp hd
    show Event.provision (joinPath (joinPath experimentsImportDirectory p) d) ∈
      Event.provision experimentsImportDirectory ::
        (resolveProjects fs none).flatMap
          (fun project =>
            experimentImport fs experimentsImportDirectory experimentsDir project)
    refine List.mem_cons_of_mem _ (List.mem_flatMap.2 ⟨p, hp, ?_⟩)
    show Event.provision (joinPath (joinPath experimentsImportDirectory p) d) ∈
      Event.provision (joinPath experimentsImportDirectory p) ::
        (fs (joinPath experimentsDir p)).flatMap (fun dataset =>
          [Event.provision (joinPath (joinPath experimentsImportDirectory p) dataset),
           Event.experimentAdapter p dataset])
    refine List.mem_cons_of_mem _ (List.mem_flatMap.2 ⟨d, hd, ?_⟩)
    exact List.mem_cons_self _ _
  · intro hnodup hds p d
    rw [expAdapterCalls_experimentsImport]
    have hnd : ((resolveProjects fs none).flatMap
        (fun q => (fs (joinPath experimentsDir q)).map (fun d0 => (q, d0)))).Nodup := by
      refine List.nodup_flatMap.2 ⟨?_, ?_⟩
      · intro q hq
        exact (hds q hq).map (fun a b hab => by injection hab)
      · refine hnodup.imp ?_
        intro a b hab x hxa hxb
        obtain ⟨da, _, ha⟩ := List.mem_map.1 hxa
        obtain ⟨db, _, hb⟩ := List.mem_map.1 hxb
        rw [← ha] at hb
        injection hb with hb1 _
        exact hab hb1.symm
    rw [count_eq_ite_of_nodup hnd (p, d)]
    by_cases hmem : p ∈ fs experimentsDir ∧ d ∈ fs (joinPath experimentsDir p)
    · rw [if_pos hmem, if_pos]
      exact List.mem_flatMap.2 ⟨p, hmem.1, List.mem_map.2 ⟨d, hmem.2, rfl⟩⟩
    · rw [if_neg hmem, if_neg]
      intro hcon
      obtain ⟨q, hq, hpair⟩ := List.mem_flatMap.1 hcon
      obtain ⟨d0, hd0, heq⟩ := List.mem_map.1 hpair
      injection heq with h1 h2
      exact hmem ⟨h1 ▸ hq, h1 ▸ h2 ▸ hd0⟩

/-- Claim C7 witness. -/
theorem experimentsImport_discovers_all_witness :
    List.count ("P1", "d1")
      (expAdapterCalls (experimentsImport fsTwoProjects none 4)) =
      (if "P1" ∈ fsTwoProjects experimentsDir ∧
          "d1" ∈ fsTwoProjects (joinPath experimentsDir "P1") then 1 else 0) ∧
    Event.provision (joinPath (joinPath experimentsImportDirectory "P1") "d1") ∈
      experimentsImport fsTwoProjects none 4 :=
  ⟨(experimentsImport_discovers_all fsTwoProjects 4 7).2.2.2.2.2
      (by decide)
      (by decide :
        ∀ q ∈ fsTwoProjects experimentsDir,
          (fsTwoProjects (joinPath experimentsDir q)).Nodup)
      "P1" "d1",
   (experimentsImport_discovers_all fsTwoProjects 4 7).2.2.2.2.1 "P1" "d1"
      (by decide) (by decide)⟩

/-- Claim C1: `fullImport` passes `importDirectory` positionally as the
`projects` argument of `experimentsImport`, so the experiments stage does
not default to discovering every project folder under the experiments
source root: with projects `P1`, `P2` (each holding dataset `d1`) present,
the run invokes the Experiment Adapter zero times, while the scope-all call
`experimentsImport(None)` would invoke it once per (project, dataset)
pair. -/
theorem fullImport_experiments_scope_bug :
    fsTwoProjects experimentsDir = ["P1", "P2"] ∧
    expAdapterCalls (experimentsImport fsTwoProjects none 4) =
      [("P1", "d1"), ("P2", "d1")] ∧
    expAdapterCalls (fullImport fsTwoProjects "1.0" [] [] ledgerAbsent).1 = [] ∧
    resolveProjects fsTwoProjects (some (PyStrOrList.str importDirectory)) =
      importDirectory.data.map (fun c => String.mk [c]) := by
  exact ⟨rfl, rfl, rfl, rfl⟩

end CKG
